import Mathlib

/-
  Shallow embedding of the cancellation-safety core of the ringbahn
  repository (src/net/listener.rs and src/event/read.rs), together with
  theorems checking the natural-language specification against it.

  Modelling conventions:
  - Raw pointers / heap allocations are identified by natural numbers
    (allocation ids handed out by a monotone counter).
  - `io::Result<T>` is `IoResult T` with OS error codes abstracted to `Nat`.
  - `Poll<T>` is `Poll T`.
  - A Rust panic (e.g. `Option::unwrap` on `None`, or an explicit
    `panic!`) is modelled by the operation returning `none` in `Option`.
  - The external Ring ("Reactor Handle") is a black box: the outcome of
    `ring.poll` and the bytes the kernel wrote into the address buffer
    (i.e. the result of `SockAddrStorage::as_socket_addr`) are inputs to
    each poll function; the tokens handed to `ring.cancel` are recorded
    in order in the listener state's `ringTokens` field.
-/

namespace Ringbahn

/-- The operation kinds of the listener's guard state (listener.rs, `enum Op`). -/
inductive Op where
  | Nothing
  | Accept
  | Close
deriving DecidableEq, Repr

/-- The only concrete cancellation callback appearing in the source: the
function defined inside `TcpListener::cancel`, whose body is
`drop(Box::from_raw(addr as *mut iou::SockAddrStorage))`. -/
inductive CancelCallback where
  | dropSockAddrStorageBox
deriving DecidableEq, Repr

/-- Modelled from the spec: the Cancellation Token type itself lives outside
the two excerpted source files; §3 of the spec describes its three variants
(*null*, *buffer*, *callback*), and the source constructs them via
`Cancellation::null()`, `Cancellation::buffer(ptr, cap)` and
`Cancellation::new(ptr, len, callback)`. -/
inductive Cancellation where
  | null
  | buffer (ptr : Nat) (cap : Nat)
  | callback (ptr : Nat) (len : Nat) (cb : CancelCallback)
deriving DecidableEq, Repr

/-- Semantics of invoking a cancellation callback on a heap of live
allocation ids: `dropSockAddrStorageBox` frees the boxed
`SockAddrStorage`, i.e. removes its allocation id from the heap. -/
def runCallback : CancelCallback → Nat → List Nat → List Nat
  | CancelCallback.dropSockAddrStorageBox, ptr, heap => heap.erase ptr

/-- Size of the memory region a token describes, if it describes one. -/
def Cancellation.describedSize : Cancellation → Option Nat
  | Cancellation.null => none
  | Cancellation.buffer _ cap => some cap
  | Cancellation.callback _ len _ => some len

/-- Address `x` lies in the memory region described by the token. -/
def Cancellation.covers : Cancellation → Nat → Prop
  | Cancellation.null, _ => False
  | Cancellation.buffer p c, x => p ≤ x ∧ x < p + c
  | Cancellation.callback p l _, x => p ≤ x ∧ x < p + l

/-- Rust `io::Result<α>`, with the OS error abstracted to an error code. -/
inductive IoResult (α : Type) where
  | ok (a : α)
  | err (e : Nat)
deriving DecidableEq, Repr

/-- Rust `std::task::Poll`. -/
inductive Poll (α : Type) where
  | pending
  | ready (a : α)
deriving DecidableEq, Repr

/-- Outcome of decoding the peer address out of the shared scratch buffer
(`SockAddrStorage::as_socket_addr`): either an OS error, an Inet address
(the parsed `SocketAddr` abstracted to a `Nat`), or an address of some
other family (`iou::SockAddr::{Unix, Netlink, ...}`, abstracted to its
family code). -/
inductive SockAddr where
  | Inet (a : Nat)
  | other (family : Nat)
deriving DecidableEq, Repr

/-- State of a `TcpListener` (listener.rs).  `fd` and `active` and `addr`
are the struct's fields (`addr : Option Nat` holds the allocation id of the
boxed `SockAddrStorage`).  `ringTokens` records, in order, every token
passed to `ring.cancel`;  `nextAlloc` is the allocator's fresh-id counter;
`liveAllocs` the ids of currently live `SockAddrStorage` boxes; `fdClosed`
whether `libc::close(fd)` has been called on the descriptor. -/
structure TcpListener where
  fd : Nat
  active : Op
  addr : Option Nat
  ringTokens : List Cancellation
  nextAlloc : Nat
  liveAllocs : List Nat
  fdClosed : Bool
deriving DecidableEq, Repr

/-- The listener state produced by a successful `bind_on_driver`
(listener.rs lines 59-63): `active: Op::Nothing`, `addr: None`. -/
def TcpListener.bound (fd : Nat) : TcpListener :=
  { fd := fd, active := Op.Nothing, addr := none, ringTokens := [],
    nextAlloc := 0, liveAllocs := [], fdClosed := false }

/-- Embedding of `TcpListener::cancel` (listener.rs lines 82-98).  Matches on `active`:
`Accept` builds a callback token around `&mut **self.addr.as_mut().unwrap()`
(the `unwrap` panics — `none` — when `addr` is `None`); `Close` builds a
null token; `Nothing` returns early without touching anything.  Otherwise
`active` is reset to `Nothing` and the token is handed to `ring.cancel`. -/
def TcpListener.cancel (s : TcpListener) : Option TcpListener :=
  match s.active with
  | Op.Nothing => some s
  | Op.Close =>
      some { s with active := Op.Nothing,
                    ringTokens := s.ringTokens ++ [Cancellation.null] }
  | Op.Accept =>
      match s.addr with
      | none => none
      | some p =>
          some { s with active := Op.Nothing,
                        ringTokens := s.ringTokens ++
                          [Cancellation.callback p 0
                            CancelCallback.dropSockAddrStorageBox] }

/-- Embedding of `TcpListener::guard_op` (listener.rs lines 74-80): cancel the previous
operation if a *different* kind is active, then adopt `op`. -/
def TcpListener.guard_op (s : TcpListener) (op : Op) : Option TcpListener :=
  if s.active ≠ Op.Nothing ∧ s.active ≠ op then
    (s.cancel).map (fun s' => { s' with active := op })
  else
    some { s with active := op }

/-- Embedding of `TcpListener::drop_addr` (listener.rs lines 100-102): `self.addr.take()`,
dropping (hence freeing) the boxed `SockAddrStorage` if present. -/
def TcpListener.drop_addr (s : TcpListener) : TcpListener :=
  match s.addr with
  | some p => { s with addr := none, liveAllocs := s.liveAllocs.erase p }
  | none => s

/-- Embedding of `TcpListener::split` (listener.rs lines 108-116): lazily allocate the
shared `SockAddrStorage` box if absent, and return (the state and) the
buffer handed to the accept submission. -/
def TcpListener.split (s : TcpListener) : TcpListener × Nat :=
  match s.addr with
  | some p => (s, p)
  | none =>
      ({ s with addr := some s.nextAlloc,
                nextAlloc := s.nextAlloc + 1,
                liveAllocs := s.liveAllocs ++ [s.nextAlloc] },
       s.nextAlloc)

/-- Embedding of `TcpListener::poll_accept` (listener.rs lines 136-157).
`ringres` is the outcome of `ring.poll` (the submitted entry is
`prep_accept(fd, Some(addr), ...)` on the buffer returned by `split`);
`decoded` is the result of `addr.as_socket_addr()` once the ring reports
ready-ok.  Faithful to the source order: `guard_op(Op::Accept)`, `split`,
`ready!(ring.poll(..))?`, then decode, `drop_addr`, and the `match` that
panics (`none`) on a non-Inet family. -/
def TcpListener.poll_accept (s : TcpListener)
    (ringres : Poll (IoResult Nat)) (decoded : IoResult SockAddr) :
    Option (TcpListener × Poll (IoResult (Nat × Nat))) :=
  match s.guard_op Op.Accept with
  | none => none
  | some s1 =>
    match s1.split with
    | (s2, _) =>
      match ringres with
      | Poll.pending => some (s2, Poll.pending)
      | Poll.ready (IoResult.err e) => some (s2, Poll.ready (IoResult.err e))
      | Poll.ready (IoResult.ok connfd) =>
        let s3 := s2.drop_addr
        match decoded with
        | IoResult.err e => some (s3, Poll.ready (IoResult.err e))
        | IoResult.ok (SockAddr.Inet a) =>
            some (s3, Poll.ready (IoResult.ok (connfd, a)))
        | IoResult.ok (SockAddr.other _) => none

/-- Embedding of `impl Future for Close` (listener.rs lines 209-222):
`guard_op(Op::Close)`, then submit `prep_close(fd)` and propagate the
ring's pending/error/ok outcome. -/
def TcpListener.close_poll (s : TcpListener)
    (ringres : Poll (IoResult Nat)) :
    Option (TcpListener × Poll (IoResult Unit)) :=
  match s.guard_op Op.Close with
  | none => none
  | some s1 =>
    match ringres with
    | Poll.pending => some (s1, Poll.pending)
    | Poll.ready (IoResult.err e) => some (s1, Poll.ready (IoResult.err e))
    | Poll.ready (IoResult.ok _) => some (s1, Poll.ready (IoResult.ok ()))

/-- Embedding of `impl Drop for TcpListener` (listener.rs lines 161-168): close the
descriptor synchronously when `Op::Nothing` is active, otherwise route
through `cancel`. -/
def TcpListener.drop (s : TcpListener) : Option TcpListener :=
  match s.active with
  | Op.Nothing => some { s with fdClosed := true }
  | _ => s.cancel

/-- Embedding of `impl Stream for Incoming` (listener.rs lines 195-202):
`let next = ready!(self.inner().poll(ctx)); Poll::Ready(Some(next))`,
where the inner future's poll is `poll_accept`. -/
def Incoming.poll_next (s : TcpListener)
    (ringres : Poll (IoResult Nat)) (decoded : IoResult SockAddr) :
    Option (TcpListener × Poll (Option (IoResult (Nat × Nat)))) :=
  match s.poll_accept ringres decoded with
  | none => none
  | some (s', Poll.pending) => some (s', Poll.pending)
  | some (s', Poll.ready r) => some (s', Poll.ready (some r))

/-- A Rust `Vec<u8>` abstracted to its backing pointer, logical length and
allocated capacity. -/
structure RustVec where
  ptr : Nat
  len : Nat
  capacity : Nat
deriving DecidableEq, Repr

/-- The `Read` event (read.rs lines 8-12): target descriptor, owned buffer,
byte offset. -/
structure Read where
  io : Nat
  buf : RustVec
  offset : Nat
deriving DecidableEq, Repr

/-- Embedding of `Read::new` (read.rs lines 15-17). -/
def Read.new (io : Nat) (buf : RustVec) (offset : Nat) : Read :=
  { io := io, buf := buf, offset := offset }

/-- Embedding of `Read::sqes_needed` (read.rs line 21). -/
def Read.sqes_needed (_ : Read) : Nat := 1

/-- A prepared submission-queue entry, as written by the events in src/:
a read request carries the target fd, the base address and length of the
submitted slice, and the file offset. -/
inductive SQE where
  | read (fd : Nat) (addr : Nat) (len : Nat) (offset : Nat)
deriving DecidableEq, Repr

/-- Address `x` lies in the memory region a submission entry hands to the
kernel. -/
def SQE.covers : SQE → Nat → Prop
  | SQE.read _ a l _, x => a ≤ x ∧ x < a + l

/-- Embedding of `Read::prepare` (read.rs lines 23-27): `prep_read(fd, &mut buf[..], offset)`
submits the slice of the buffer's *logical length*. -/
def Read.prepare (r : Read) : SQE :=
  SQE.read r.io r.buf.ptr r.buf.len r.offset

/-- Embedding of `Read::cancel` (read.rs lines 29-33): extract the buffer without running
its destructor (`ManuallyDrop`), take `buf.capacity()`, and return
`Cancellation::buffer(buf.as_mut_ptr(), cap)`. -/
def Read.cancel (r : Read) : Cancellation :=
  Cancellation.buffer r.buf.ptr r.buf.capacity

end Ringbahn

namespace Ringbahn

lemma guard_op_same_kind (s : TcpListener) (op : Op) (h : s.active = op) :
    s.guard_op op = some s := by
  unfold TcpListener.guard_op
  subst h
  simp

lemma guard_op_from_idle (s : TcpListener) (op : Op) (h : s.active = Op.Nothing) :
    s.guard_op op = some { s with active := op } := by
  unfold TcpListener.guard_op
  simp [h]

lemma guard_op_close_to_accept (s : TcpListener) (h : s.active = Op.Close) :
    s.guard_op Op.Accept =
      some { s with active := Op.Accept,
                    ringTokens := s.ringTokens ++ [Cancellation.null] } := by
  unfold TcpListener.guard_op TcpListener.cancel
  simp [h]

lemma guard_op_accept_to_close (s : TcpListener) (p : Nat)
    (ha : s.active = Op.Accept) (hp : s.addr = some p) :
    s.guard_op Op.Close =
      some { s with active := Op.Close,
                    ringTokens := s.ringTokens ++
                      [Cancellation.callback p 0
                        CancelCallback.dropSockAddrStorageBox] } := by
  unfold TcpListener.guard_op TcpListener.cancel
  simp [ha, hp]

lemma guard_op_accept_to_close_panic (s : TcpListener)
    (ha : s.active = Op.Accept) (hp : s.addr = none) :
    s.guard_op Op.Close = none := by
  unfold TcpListener.guard_op TcpListener.cancel
  simp [ha, hp]

lemma guard_op_accept_total (s : TcpListener) :
    ∃ s1, s.guard_op Op.Accept = some s1 := by
  unfold TcpListener.guard_op TcpListener.cancel
  rcases h : s.active <;> simp [h]

lemma guard_op_fields (s : TcpListener) (op : Op) (s1 : TcpListener)
    (h : s.guard_op op = some s1) :
    s1.active = op ∧ s1.addr = s.addr ∧ s1.nextAlloc = s.nextAlloc ∧
      s1.liveAllocs = s.liveAllocs ∧ s1.fdClosed = s.fdClosed ∧ s1.fd = s.fd := by
  unfold TcpListener.guard_op TcpListener.cancel at h
  rcases ha : s.active <;> rcases hp : s.addr <;> simp [ha, hp] at h <;>
    (try split at h) <;> (try simp at h) <;> simp [← h]

end Ringbahn

namespace Ringbahn

lemma split_of_some (s : TcpListener) (p : Nat) (h : s.addr = some p) :
    s.split = (s, p) := by
  unfold TcpListener.split
  simp [h]

lemma split_of_none (s : TcpListener) (h : s.addr = none) :
    s.split = ({ s with addr := some s.nextAlloc,
                        nextAlloc := s.nextAlloc + 1,
                        liveAllocs := s.liveAllocs ++ [s.nextAlloc] },
               s.nextAlloc) := by
  unfold TcpListener.split
  simp [h]

lemma split_fields (s : TcpListener) :
    (s.split).1.active = s.active ∧ (s.split).1.ringTokens = s.ringTokens ∧
      (s.split).1.fd = s.fd ∧ (s.split).1.fdClosed = s.fdClosed ∧
      (s.split).1.addr = some ((s.split).2) := by
  unfold TcpListener.split
  rcases h : s.addr <;> simp [h]

lemma split_nextAlloc_of_some (s : TcpListener) (p : Nat) (h : s.addr = some p) :
    (s.split).1.nextAlloc = s.nextAlloc := by
  simp [split_of_some s p h]

lemma split_nextAlloc_of_none (s : TcpListener) (h : s.addr = none) :
    (s.split).1.nextAlloc = s.nextAlloc + 1 := by
  simp [split_of_none s h]

lemma drop_addr_fields (s : TcpListener) :
    (s.drop_addr).active = s.active ∧ (s.drop_addr).ringTokens = s.ringTokens ∧
      (s.drop_addr).fd = s.fd ∧ (s.drop_addr).fdClosed = s.fdClosed ∧
      (s.drop_addr).addr = none ∧ (s.drop_addr).nextAlloc = s.nextAlloc := by
  unfold TcpListener.drop_addr
  rcases h : s.addr <;> simp [h]

lemma poll_accept_guard_none {s : TcpListener}
    (h : s.guard_op Op.Accept = none)
    (ringres : Poll (IoResult Nat)) (decoded : IoResult SockAddr) :
    s.poll_accept ringres decoded = none := by
  unfold TcpListener.poll_accept
  simp [h]

lemma poll_accept_pending {s s1 : TcpListener}
    (h : s.guard_op Op.Accept = some s1) (decoded : IoResult SockAddr) :
    s.poll_accept Poll.pending decoded = some ((s1.split).1, Poll.pending) := by
  unfold TcpListener.poll_accept
  simp [h]

lemma poll_accept_ring_err {s s1 : TcpListener}
    (h : s.guard_op Op.Accept = some s1) (e : Nat) (decoded : IoResult SockAddr) :
    s.poll_accept (Poll.ready (IoResult.err e)) decoded =
      some ((s1.split).1, Poll.ready (IoResult.err e)) := by
  unfold TcpListener.poll_accept
  simp [h]

lemma poll_accept_ready_inet {s s1 : TcpListener}
    (h : s.guard_op Op.Accept = some s1) (connfd a : Nat) :
    s.poll_accept (Poll.ready (IoResult.ok connfd)) (IoResult.ok (SockAddr.Inet a)) =
      some ((s1.split).1.drop_addr, Poll.ready (IoResult.ok (connfd, a))) := by
  unfold TcpListener.poll_accept
  simp [h]

lemma poll_accept_decode_err {s s1 : TcpListener}
    (h : s.guard_op Op.Accept = some s1) (connfd e : Nat) :
    s.poll_accept (Poll.ready (IoResult.ok connfd)) (IoResult.err e) =
      some ((s1.split).1.drop_addr, Poll.ready (IoResult.err e)) := by
  unfold TcpListener.poll_accept
  simp [h]

lemma poll_accept_ready_other {s s1 : TcpListener}
    (h : s.guard_op Op.Accept = some s1) (connfd fam : Nat) :
    s.poll_accept (Poll.ready (IoResult.ok connfd)) (IoResult.ok (SockAddr.other fam)) =
      none := by
  unfold TcpListener.poll_accept
  simp [h]

lemma close_poll_guard_none {s : TcpListener}
    (h : s.guard_op Op.Close = none) (ringres : Poll (IoResult Nat)) :
    s.close_poll ringres = none := by
  unfold TcpListener.close_poll
  simp [h]

lemma close_poll_of_guard {s s1 : TcpListener}
    (h : s.guard_op Op.Close = some s1) (ringres : Poll (IoResult Nat)) :
    s.close_poll ringres =
      some (s1, match ringres with
                | Poll.pending => Poll.pending
                | Poll.ready (IoResult.err e) => Poll.ready (IoResult.err e)
                | Poll.ready (IoResult.ok _) => Poll.ready (IoResult.ok ())) := by
  unfold TcpListener.close_poll
  rcases ringres with _ | r
  · simp [h]
  · rcases r <;> simp [h]

lemma poll_accept_state_cases {s : TcpListener}
    {ringres : Poll (IoResult Nat)} {decoded : IoResult SockAddr}
    {s' : TcpListener} {r : Poll (IoResult (Nat × Nat))}
    (h : s.poll_accept ringres decoded = some (s', r)) :
    ∃ s1, s.guard_op Op.Accept = some s1 ∧
      (s' = (s1.split).1 ∨ s' = (s1.split).1.drop_addr) := by
  obtain ⟨s1, h1⟩ := guard_op_accept_total s
  refine ⟨s1, h1, ?_⟩
  unfold TcpListener.poll_accept at h
  rcases ringres with _ | res
  · simp [h1] at h
    exact Or.inl h.1.symm
  · rcases res with f | e
    · rcases decoded with d | e
      · rcases d with a | fam
        · simp [h1] at h
          exact Or.inr h.1.symm
        · simp [h1] at h
      · simp [h1] at h
        exact Or.inr h.1.symm
    · simp [h1] at h
      exact Or.inl h.1.symm

end Ringbahn

namespace Ringbahn

lemma post_split_fields (s1 s' : TcpListener)
    (h : s' = (s1.split).1 ∨ s' = (s1.split).1.drop_addr) :
    s'.active = s1.active ∧ s'.ringTokens = s1.ringTokens := by
  rcases h with h | h <;> subst h
  · exact ⟨(split_fields s1).1, (split_fields s1).2.1⟩
  · constructor
    · rw [(drop_addr_fields _).1, (split_fields s1).1]
    · rw [(drop_addr_fields _).2.1, (split_fields s1).2.1]

/-- Claim C1: across the polls of one listener, a change of active
operation kind from X to a different Y always registers X's cancellation
token with the ring in the same step that adopts Y (`guard_op` cancels
before adopting), a repeated poll of the same kind leaves the guard state
untouched, and polls that do not switch away from a different kind
register no token. -/
theorem claim_C1_single_active_discipline (s : TcpListener) :
    (∀ op, s.active = op → s.guard_op op = some s) ∧
    (s.active = Op.Close → ∀ ringres decoded s' r,
        s.poll_accept ringres decoded = some (s', r) →
        s'.active = Op.Accept ∧
        s'.ringTokens = s.ringTokens ++ [Cancellation.null]) ∧
    (s.active = Op.Accept → ∀ p, s.addr = some p →
        ∀ ringres s' r, s.close_poll ringres = some (s', r) →
        s'.active = Op.Close ∧
        s'.ringTokens = s.ringTokens ++
          [Cancellation.callback p 0 CancelCallback.dropSockAddrStorageBox]) ∧
    (s.active ≠ Op.Close → ∀ ringres decoded s' r,
        s.poll_accept ringres decoded = some (s', r) →
        s'.ringTokens = s.ringTokens) ∧
    (s.active ≠ Op.Accept → ∀ ringres s' r,
        s.close_poll ringres = some (s', r) →
        s'.ringTokens = s.ringTokens) := by
  refine ⟨fun op h => guard_op_same_kind s op h, ?_, ?_, ?_, ?_⟩
  · intro ha ringres decoded s' r hp
    obtain ⟨s1, h1, hc⟩ := poll_accept_state_cases hp
    rw [guard_op_close_to_accept s ha] at h1
    injection h1 with h1
    subst h1
    exact post_split_fields _ s' hc
  · intro ha p hp ringres s' r hcl
    rw [close_poll_of_guard (guard_op_accept_to_close s p ha hp) ringres] at hcl
    simp only [Option.some.injEq, Prod.mk.injEq] at hcl
    obtain ⟨h1, -⟩ := hcl
    subst h1
    exact ⟨rfl, rfl⟩
  · intro hne ringres decoded s' r hp
    obtain ⟨s1, h1, hc⟩ := poll_accept_state_cases hp
    have htok := (post_split_fields s1 s' hc).2
    rcases ha : s.active with _ | _ | _
    · rw [guard_op_from_idle s Op.Accept ha] at h1
      injection h1 with h1
      subst h1
      exact htok
    · rw [guard_op_same_kind s Op.Accept ha] at h1
      injection h1 with h1
      subst h1
      exact htok
    · exact absurd ha hne
  · intro hne ringres s' r hcl
    rcases ha : s.active with _ | _ | _
    · rw [close_poll_of_guard (guard_op_from_idle s Op.Close ha) ringres] at hcl
      simp only [Option.some.injEq, Prod.mk.injEq] at hcl
      obtain ⟨h1, -⟩ := hcl
      subst h1
      rfl
    · exact absurd ha hne
    · rw [close_poll_of_guard (guard_op_same_kind s Op.Close ha) ringres] at hcl
      simp only [Option.some.injEq, Prod.mk.injEq] at hcl
      obtain ⟨h1, -⟩ := hcl
      subst h1
      rfl

/-- Concrete instance of C1: a listener whose active kind is `Close`,
polled for accept, registers the null token and adopts `Accept`. -/
theorem claim_C1_witness :
    (⟨3, Op.Accept, some 0, [Cancellation.null], 1, [0], false⟩ : TcpListener).active =
        Op.Accept ∧
    (⟨3, Op.Accept, some 0, [Cancellation.null], 1, [0], false⟩ : TcpListener).ringTokens =
      (⟨3, Op.Close, none, [], 0, [], false⟩ : TcpListener).ringTokens ++
        [Cancellation.null] :=
  (claim_C1_single_active_discipline ⟨3, Op.Close, none, [], 0, [], false⟩).2.1 rfl
    Poll.pending (IoResult.err 0) _ Poll.pending (by decide)

end Ringbahn

namespace Ringbahn

/-- Claim C2 as stated is refuted here at a concrete reachable state:
after a completed accept the listener has `active = Op::Accept` but
`addr = None`; destroying it routes into `cancel`, whose
`self.addr.as_mut().unwrap()` panics (modelled as `none`), so no
Cancellation Token is produced or registered. -/
theorem claim_C2_counterexample :
    (⟨3, Op.Accept, none, [], 1, [], false⟩ : TcpListener).drop = none := by decide

/-- Claim C2 (amended): destroying a listener whose active kind is `Close`,
or `Accept` with the scratch buffer still present, routes through `cancel`
— registering the corresponding token — and does not touch the file
descriptor; destroying an idle listener closes the descriptor
synchronously and registers no token. -/
theorem claim_C2_drop_routes_through_cancel (s : TcpListener) :
    (s.active = Op.Nothing → s.drop = some { s with fdClosed := true }) ∧
    (s.active = Op.Close → ∀ s', s.drop = some s' →
        s'.fdClosed = s.fdClosed ∧ s'.fd = s.fd ∧
        s'.ringTokens = s.ringTokens ++ [Cancellation.null]) ∧
    (s.active = Op.Accept → ∀ p, s.addr = some p → ∀ s', s.drop = some s' →
        s'.fdClosed = s.fdClosed ∧ s'.fd = s.fd ∧
        s'.ringTokens = s.ringTokens ++
          [Cancellation.callback p 0 CancelCallback.dropSockAddrStorageBox]) := by
  refine ⟨?_, ?_, ?_⟩
  · intro h
    unfold TcpListener.drop
    simp [h]
  · intro h s' hd
    unfold TcpListener.drop TcpListener.cancel at hd
    simp [h] at hd
    subst hd
    exact ⟨rfl, rfl, rfl⟩
  · intro h p hp s' hd
    unfold TcpListener.drop TcpListener.cancel at hd
    simp [h, hp] at hd
    subst hd
    exact ⟨rfl, rfl, rfl⟩

/-- Concrete instance of the amended C2: dropping a listener that is mid
accept with a live scratch buffer registers the callback token and leaves
the descriptor open. -/
theorem claim_C2_witness :
    (⟨9, Op.Nothing, some 4,
        [Cancellation.callback 4 0 CancelCallback.dropSockAddrStorageBox],
        5, [4], false⟩ : TcpListener).fdClosed =
      (⟨9, Op.Accept, some 4, [], 5, [4], false⟩ : TcpListener).fdClosed ∧
    (⟨9, Op.Nothing, some 4,
        [Cancellation.callback 4 0 CancelCallback.dropSockAddrStorageBox],
        5, [4], false⟩ : TcpListener).fd =
      (⟨9, Op.Accept, some 4, [], 5, [4], false⟩ : TcpListener).fd ∧
    (⟨9, Op.Nothing, some 4,
        [Cancellation.callback 4 0 CancelCallback.dropSockAddrStorageBox],
        5, [4], false⟩ : TcpListener).ringTokens =
      (⟨9, Op.Accept, some 4, [], 5, [4], false⟩ : TcpListener).ringTokens ++
        [Cancellation.callback 4 0 CancelCallback.dropSockAddrStorageBox] :=
  (claim_C2_drop_routes_through_cancel ⟨9, Op.Accept, some 4, [], 5, [4], false⟩).2.2
    rfl 4 rfl _ (by decide)

/-- Claim C3: the code contradicts the spec here.  Driving an accept (resp.
a close) to confirmed completion leaves `active` equal to `Op::Accept`
(resp. `Op::Close`), not `Op::Nothing`: neither completion path resets the
guard state to idle. -/
theorem claim_C3_completion_does_not_return_to_idle :
    ((TcpListener.bound 3).poll_accept (Poll.ready (IoResult.ok 10))
        (IoResult.ok (SockAddr.Inet 1)) =
      some (⟨3, Op.Accept, none, [], 1, [], false⟩,
            Poll.ready (IoResult.ok (10, 1)))) ∧
    (⟨3, Op.Accept, none, [], 1, [], false⟩ : TcpListener).active ≠ Op.Nothing ∧
    ((TcpListener.bound 4).close_poll (Poll.ready (IoResult.ok 0)) =
      some (⟨4, Op.Close, none, [], 0, [], false⟩,
            Poll.ready (IoResult.ok ()))) ∧
    (⟨4, Op.Close, none, [], 0, [], false⟩ : TcpListener).active ≠ Op.Nothing := by
  decide

/-- Claim C4: `Read::cancel` returns a buffer-variant token sized to the
buffer's allocated capacity, never to its logical length when that is
shorter. -/
theorem claim_C4_read_cancel_capacity (r : Read) :
    Read.cancel r = Cancellation.buffer r.buf.ptr r.buf.capacity ∧
    Cancellation.describedSize (Read.cancel r) = some r.buf.capacity ∧
    (r.buf.len < r.buf.capacity →
      Cancellation.describedSize (Read.cancel r) ≠ some r.buf.len) := by
  refine ⟨rfl, rfl, ?_⟩
  intro h hc
  simp [Read.cancel, Cancellation.describedSize] at hc
  omega

/-- Concrete instance of C4: a read buffer of logical length 2 and capacity
5 is reclaimed as 5 bytes, not 2. -/
theorem claim_C4_witness :
    2 < 5 ∧
    Cancellation.describedSize (Read.cancel (Read.new 1 ⟨100, 2, 5⟩ 0)) ≠ some 2 :=
  ⟨by decide, (claim_C4_read_cancel_capacity (Read.new 1 ⟨100, 2, 5⟩ 0)).2.2 (by decide)⟩

/-- Claim C5 as stated is refuted at the (reachable) state with
`active = Op::Accept` and `addr = None`: `cancel` panics on the `unwrap`
(modelled as `none`) instead of producing a callback-variant token. -/
theorem claim_C5_counterexample :
    (⟨7, Op.Accept, none, [], 2, [], false⟩ : TcpListener).cancel = none := by decide

/-- Claim C5 (amended): per active kind, `cancel` registers exactly a
callback-variant token over the scratch buffer when `Accept` is active and
the buffer is present (and invoking that callback deallocates the buffer),
a null token when `Close` is active, and nothing at all when idle. -/
theorem claim_C5_cancel_token_kinds (s : TcpListener) :
    (s.active = Op.Nothing → s.cancel = some s) ∧
    (s.active = Op.Close →
        s.cancel = some { s with active := Op.Nothing,
                                 ringTokens := s.ringTokens ++ [Cancellation.null] }) ∧
    (s.active = Op.Accept → ∀ p, s.addr = some p →
        s.cancel = some { s with active := Op.Nothing,
                                 ringTokens := s.ringTokens ++
                                   [Cancellation.callback p 0
                                     CancelCallback.dropSockAddrStorageBox] } ∧
        (∀ heap : List Nat, heap.Nodup →
          p ∉ runCallback CancelCallback.dropSockAddrStorageBox p heap)) := by
  refine ⟨?_, ?_, ?_⟩
  · intro h
    unfold TcpListener.cancel
    simp [h]
  · intro h
    unfold TcpListener.cancel
    simp [h]
  · intro h p hp
    constructor
    · unfold TcpListener.cancel
      simp [h, hp]
    · intro heap hnd
      simp only [runCallback]
      exact hnd.not_mem_erase

/-- Concrete instance of the amended C5: cancelling a mid-accept listener
registers the callback token over buffer 6, and running that callback on a
heap removes buffer 6. -/
theorem claim_C5_witness :
    (⟨11, Op.Accept, some 6, [], 7, [6], false⟩ : TcpListener).cancel =
      some (⟨11, Op.Nothing, some 6,
              [Cancellation.callback 6 0 CancelCallback.dropSockAddrStorageBox],
              7, [6], false⟩ : TcpListener) ∧
    6 ∉ runCallback CancelCallback.dropSockAddrStorageBox 6 [6, 8] :=
  have h := (claim_C5_cancel_token_kinds ⟨11, Op.Accept, some 6, [], 7, [6], false⟩).2.2
    rfl 6 rfl
  ⟨h.1, h.2 [6, 8] (by decide)⟩

end Ringbahn

namespace Ringbahn

/-- Claim C6: on a completed accept, `poll_accept` yields the new
connection's descriptor with the decoded Inet peer address and has
released the scratch buffer (`addr` is `None`); if the decoded address
family is not Inet it panics (modelled as `none`) instead of returning a
recoverable error. -/
theorem claim_C6_completion_decodes_and_releases (s : TcpListener)
    (connfd a fam : Nat) :
    (∃ s', s.poll_accept (Poll.ready (IoResult.ok connfd))
          (IoResult.ok (SockAddr.Inet a)) =
        some (s', Poll.ready (IoResult.ok (connfd, a))) ∧ s'.addr = none) ∧
    s.poll_accept (Poll.ready (IoResult.ok connfd))
        (IoResult.ok (SockAddr.other fam)) = none := by
  obtain ⟨s1, h1⟩ := guard_op_accept_total s
  exact ⟨⟨(s1.split).1.drop_addr, poll_accept_ready_inet h1 connfd a,
          (drop_addr_fields _).2.2.2.2.1⟩,
         poll_accept_ready_other h1 connfd fam⟩

/-- Claim C7 as stated is refuted on a concrete three-accept trace from a
freshly bound listener: each completed accept drops the scratch buffer and
the next accept allocates a fresh one (allocation ids 0, 1, 2), so the
storage of the second and third accept differs from the first's. -/
theorem claim_C7_counterexample :
    ((TcpListener.bound 3).poll_accept Poll.pending (IoResult.err 0) =
      some (⟨3, Op.Accept, some 0, [], 1, [0], false⟩, Poll.pending)) ∧
    ((⟨3, Op.Accept, some 0, [], 1, [0], false⟩ : TcpListener).poll_accept
        (Poll.ready (IoResult.ok 10)) (IoResult.ok (SockAddr.Inet 1)) =
      some (⟨3, Op.Accept, none, [], 1, [], false⟩,
            Poll.ready (IoResult.ok (10, 1)))) ∧
    ((⟨3, Op.Accept, none, [], 1, [], false⟩ : TcpListener).poll_accept
        Poll.pending (IoResult.err 0) =
      some (⟨3, Op.Accept, some 1, [], 2, [1], false⟩, Poll.pending)) ∧
    ((⟨3, Op.Accept, some 1, [], 2, [1], false⟩ : TcpListener).poll_accept
        (Poll.ready (IoResult.ok 11)) (IoResult.ok (SockAddr.Inet 2)) =
      some (⟨3, Op.Accept, none, [], 2, [], false⟩,
            Poll.ready (IoResult.ok (11, 2)))) ∧
    ((⟨3, Op.Accept, none, [], 2, [], false⟩ : TcpListener).poll_accept
        Poll.pending (IoResult.err 0) =
      some (⟨3, Op.Accept, some 2, [], 3, [2], false⟩, Poll.pending)) ∧
    ((⟨3, Op.Accept, some 2, [], 3, [2], false⟩ : TcpListener).poll_accept
        (Poll.ready (IoResult.ok 12)) (IoResult.ok (SockAddr.Inet 3)) =
      some (⟨3, Op.Accept, none, [], 3, [], false⟩,
            Poll.ready (IoResult.ok (12, 3)))) ∧
    (⟨3, Op.Accept, some 1, [], 2, [1], false⟩ : TcpListener).addr ≠
      (⟨3, Op.Accept, some 0, [], 1, [0], false⟩ : TcpListener).addr ∧
    (⟨3, Op.Accept, some 2, [], 3, [2], false⟩ : TcpListener).addr ≠
      (⟨3, Op.Accept, some 0, [], 1, [0], false⟩ : TcpListener).addr :=
  ⟨by decide, by decide, by decide, by decide, by decide, by decide, by decide,
   by decide⟩

/-- Claim C7 (amended): the scratch buffer is reused only across successive
polls of one in-flight accept (a pending poll keeps the same buffer and
allocates nothing); whenever the buffer is absent — in particular after
every completed accept, which releases it — the next accept poll performs
a fresh allocation. -/
theorem claim_C7_buffer_reuse_and_reallocation (s : TcpListener)
    (ringres : Poll (IoResult Nat)) (decoded : IoResult SockAddr)
    (s' : TcpListener) (r : Poll (IoResult (Nat × Nat)))
    (h : s.poll_accept ringres decoded = some (s', r)) :
    (∀ p, s.addr = some p → s'.nextAlloc = s.nextAlloc ∧
        (r = Poll.pending → s'.addr = some p)) ∧
    (s.addr = none → s'.nextAlloc = s.nextAlloc + 1) ∧
    (∀ f a, r = Poll.ready (IoResult.ok (f, a)) → s'.addr = none) := by
  obtain ⟨s1, h1⟩ := guard_op_accept_total s
  have hf := guard_op_fields s Op.Accept s1 h1
  have haddr : s1.addr = s.addr := hf.2.1
  have hna : s1.nextAlloc = s.nextAlloc := hf.2.2.1
  rcases ringres with _ | res
  · rw [poll_accept_pending h1 decoded] at h
    simp only [Option.some.injEq, Prod.mk.injEq] at h
    obtain ⟨h2, h3⟩ := h
    subst h2
    subst h3
    refine ⟨?_, ?_, ?_⟩
    · intro p hp
      rw [split_of_some s1 p (haddr.trans hp)]
      exact ⟨hna, fun _ => haddr.trans hp⟩
    · intro hp
      rw [split_nextAlloc_of_none s1 (haddr.trans hp), hna]
    · intro f a hx
      simp at hx
  · rcases res with f | e
    · rcases decoded with d | e
      · rcases d with a | fam
        · rw [poll_accept_ready_inet h1 f a] at h
          simp only [Option.some.injEq, Prod.mk.injEq] at h
          obtain ⟨h2, h3⟩ := h
          subst h2
          subst h3
          refine ⟨?_, ?_, ?_⟩
          · intro p hp
            rw [(drop_addr_fields _).2.2.2.2.2, split_of_some s1 p (haddr.trans hp)]
            exact ⟨hna, fun hx => by simp at hx⟩
          · intro hp
            rw [(drop_addr_fields _).2.2.2.2.2,
                split_nextAlloc_of_none s1 (haddr.trans hp), hna]
          · intro f' a' _
            exact (drop_addr_fields _).2.2.2.2.1
        · rw [poll_accept_ready_other h1 f fam] at h
          cases h
      · rw [poll_accept_decode_err h1 f e] at h
        simp only [Option.some.injEq, Prod.mk.injEq] at h
        obtain ⟨h2, h3⟩ := h
        subst h2
        subst h3
        refine ⟨?_, ?_, ?_⟩
        · intro p hp
          rw [(drop_addr_fields _).2.2.2.2.2, split_of_some s1 p (haddr.trans hp)]
          exact ⟨hna, fun hx => by simp at hx⟩
        · intro hp
          rw [(drop_addr_fields _).2.2.2.2.2,
              split_nextAlloc_of_none s1 (haddr.trans hp), hna]
        · intro f' a' hx
          simp at hx
    · rw [poll_accept_ring_err h1 e decoded] at h
      simp only [Option.some.injEq, Prod.mk.injEq] at h
      obtain ⟨h2, h3⟩ := h
      subst h2
      subst h3
      refine ⟨?_, ?_, ?_⟩
      · intro p hp
        rw [split_of_some s1 p (haddr.trans hp)]
        exact ⟨hna, fun hx => by simp at hx⟩
      · intro hp
        rw [split_nextAlloc_of_none s1 (haddr.trans hp), hna]
      · intro f' a' hx
        simp at hx

/-- Concrete instance of the amended C7: a first accept poll on a freshly
bound listener allocates a fresh scratch buffer. -/
theorem claim_C7_witness :
    (⟨3, Op.Accept, some 0, [], 1, [0], false⟩ : TcpListener).nextAlloc =
      (TcpListener.bound 3).nextAlloc + 1 :=
  (claim_C7_buffer_reuse_and_reallocation (TcpListener.bound 3) Poll.pending
    (IoResult.err 0) _ Poll.pending (by decide)).2.1 rfl

end Ringbahn

namespace Ringbahn

/-- Claim C8: `Incoming::poll_next` yields exactly the result of driving the
underlying accept once, wrapped in `Some` — pending stays pending, every
ready accept result (ok or err) is wrapped in `Some`, a panic propagates —
and the stream never produces `None` on its own. -/
theorem claim_C8_incoming_wraps_accept (s : TcpListener)
    (ringres : Poll (IoResult Nat)) (decoded : IoResult SockAddr) :
    (∀ s', s.poll_accept ringres decoded = some (s', Poll.pending) →
        Incoming.poll_next s ringres decoded = some (s', Poll.pending)) ∧
    (∀ s' res, s.poll_accept ringres decoded = some (s', Poll.ready res) →
        Incoming.poll_next s ringres decoded = some (s', Poll.ready (some res))) ∧
    (s.poll_accept ringres decoded = none →
        Incoming.poll_next s ringres decoded = none) ∧
    (∀ s' out, Incoming.poll_next s ringres decoded = some (s', out) →
        out ≠ Poll.ready none) := by
  refine ⟨?_, ?_, ?_, ?_⟩
  · intro s' h
    simp [Incoming.poll_next, h]
  · intro s' res h
    simp [Incoming.poll_next, h]
  · intro h
    simp [Incoming.poll_next, h]
  · intro s' out h hx
    unfold Incoming.poll_next at h
    rcases hp : s.poll_accept ringres decoded with _ | sp
    · rw [hp] at h
      cases h
    · rcases sp with ⟨s2, pr⟩
      rw [hp] at h
      rcases pr with _ | res
      · simp only [Option.some.injEq, Prod.mk.injEq] at h
        obtain ⟨-, h2⟩ := h
        rw [← h2] at hx
        cases hx
      · simp only [Option.some.injEq, Prod.mk.injEq] at h
        obtain ⟨-, h2⟩ := h
        rw [← h2] at hx
        simp at hx

/-- Concrete instance of C8: a pending accept makes the stream poll
pending, and a completed accept is yielded wrapped in `Some`. -/
theorem claim_C8_witness :
    Incoming.poll_next (TcpListener.bound 3) Poll.pending (IoResult.err 0) =
      some (⟨3, Op.Accept, some 0, [], 1, [0], false⟩, Poll.pending) :=
  (claim_C8_incoming_wraps_accept (TcpListener.bound 3) Poll.pending
    (IoResult.err 0)).1 _ (by decide)

/-- Claim C9: in any state with `active = Op::Accept` but `addr = None`,
`cancel` hits `self.addr.as_mut().unwrap()` and panics (modelled as
`none`), and so does every path that reaches it — the destructor and a
switch to `Close`; moreover every successfully completed `poll_accept`
leaves the listener in exactly such a state. -/
theorem claim_C9_stale_accept_state_panics (s : TcpListener)
    (ha : s.active = Op.Accept) (hn : s.addr = none) :
    s.cancel = none ∧ s.drop = none ∧
    (∀ ringres, s.close_poll ringres = none) ∧
    (∀ s0 s' connfd a, TcpListener.poll_accept s0
          (Poll.ready (IoResult.ok connfd)) (IoResult.ok (SockAddr.Inet a)) =
        some (s', Poll.ready (IoResult.ok (connfd, a))) →
      s'.active = Op.Accept ∧ s'.addr = none) := by
  have hc : s.cancel = none := by
    unfold TcpListener.cancel
    simp [ha, hn]
  refine ⟨hc, ?_, ?_, ?_⟩
  · unfold TcpListener.drop
    rw [ha]
    exact hc
  · intro ringres
    exact close_poll_guard_none (guard_op_accept_to_close_panic s ha hn) ringres
  · intro s0 s' connfd a h
    obtain ⟨s1, h1⟩ := guard_op_accept_total s0
    rw [poll_accept_ready_inet h1 connfd a] at h
    simp only [Option.some.injEq, Prod.mk.injEq] at h
    obtain ⟨h2, -⟩ := h
    rw [← h2]
    constructor
    · rw [(drop_addr_fields _).1, (split_fields s1).1,
          (guard_op_fields s0 Op.Accept s1 h1).1]
    · exact (drop_addr_fields _).2.2.2.2.1

/-- Concrete instance of C9: the state left by a completed accept panics on
cancel, on drop, and on a switch to close. -/
theorem claim_C9_witness :
    (⟨5, Op.Accept, none, [], 1, [], false⟩ : TcpListener).cancel = none ∧
    (⟨5, Op.Accept, none, [], 1, [], false⟩ : TcpListener).drop = none ∧
    (⟨5, Op.Accept, none, [], 1, [], false⟩ : TcpListener).close_poll
        Poll.pending = none :=
  have h := claim_C9_stale_accept_state_panics
    ⟨5, Op.Accept, none, [], 1, [], false⟩ rfl rfl
  ⟨h.1, h.2.1, h.2.2.1 Poll.pending⟩

/-- Claim C10: the memory region described by the token from `Read::cancel`
(the full allocated capacity from the buffer's base pointer) covers the
region `Read::prepare` submitted to the kernel (the logical-length slice
from the same base pointer), given the `Vec` invariant `len ≤ capacity`. -/
theorem claim_C10_cancel_region_covers_prepared (r : Read)
    (h : r.buf.len ≤ r.buf.capacity) :
    ∀ x, SQE.covers (Read.prepare r) x → Cancellation.covers (Read.cancel r) x := by
  intro x hx
  simp only [Read.prepare, SQE.covers] at hx
  simp only [Read.cancel, Cancellation.covers]
  omega

/-- Concrete instance of C10: for a read over bytes 100..102 of a
5-capacity buffer at base 100, address 101 is covered by the reclamation
token. -/
theorem claim_C10_witness :
    2 ≤ 5 ∧ Cancellation.covers (Read.cancel (Read.new 1 ⟨100, 2, 5⟩ 0)) 101 :=
  ⟨by decide, claim_C10_cancel_region_covers_prepared (Read.new 1 ⟨100, 2, 5⟩ 0)
    (by decide) 101 ⟨by decide, by decide⟩⟩

end Ringbahn
